import Mathlib

/-!
Shallow embedding of the fork/suggestion/review coordination logic of
`packages/collaboration-extension/src/collaboration.ts` (jupyter-collaboration),
namely the closure state built by `EditingModeExtension.createNew`.

Modelling choices, all read off the TypeScript source:

* The mutable closure variable `myForkId`, the three menu title labels, the
  review-menu items, the commands registered in `suggestionCommands` for
  announced fork ids, and the suggestion-menu items become fields of `CState`.
* Calls to external collaborators are recorded in the state rather than
  performed: `provider.fork()` increments `forkCalls` and sets `forkPending`
  (the outstanding promise); `provider.connectFork(t)` appends `t` to
  `connectCalls` and mirrors `t` into `currentRoomId` (the shared model's
  `currentRoomId` mirrors the room currently connected to);
  `requestDocMerge(a, b)` appends `(a, b)` to `mergeCalls`.
* Asynchronous continuations become events: the resolution / rejection of the
  single outstanding `fork()` promise are the events `forkResolved id` /
  `forkRejected` (guarded by `forkPending`, since a promise settles once);
  the "New suggestion" discovery dialog created in `_onStateChanged` becomes a
  pending entry in `prompts`, answered later by `promptOpen` / `promptDiscard`.
  `promptLog` additionally records every prompt ever created (never removed),
  so "a prompt fired for id f" is observable after the fact.
* The purely informational "You are now viewing the suggestion" dialog of the
  per-fork menu command has no effect on any state and is not recorded.
* `CommandRegistry.addCommand` / `Menu.addItem` for a discovered fork id are
  recorded by appending the id to `forkCmds` / `suggestionItems`; the
  duplicate-id behaviour of the external `@lumino/commands` registry is not
  part of this repository's source and is not modelled.
* A user can only invoke the per-fork menu command for an id that has been
  registered, and can only answer a prompt that is pending; the corresponding
  events are no-ops otherwise.
-/

/-- Client-local state of the editing / suggestion / review toolbar set up by
`EditingModeExtension.createNew`, together with the record of calls made to the
external provider and merge service. -/
structure CState where
  rootRoomId : String
  currentRoomId : String
  myForkId : String
  editingLabel : String
  suggestionLabel : String
  reviewItems : List String
  forkCmds : List String
  suggestionItems : List String
  prompts : List String
  promptLog : List String
  forkPending : Bool
  forkCalls : Nat
  connectCalls : List String
  mergeCalls : List (String × String)
deriving DecidableEq, Repr

/-- The discrete events the client reacts to: user menu selections, settlement
of the fork-creation promise, shared-state change notifications, and answers to
the discovery prompt. -/
inductive Event where
  | editing
  | suggesting
  | root
  | forkResolved (id : String)
  | forkRejected
  | stateChanged (names : List String)
  | forkMenu (id : String)
  | promptOpen (id : String)
  | promptDiscard (id : String)
  | merge
  | discard
deriving DecidableEq, Repr

/-- State on opening a collaborative document (lines 238–259 and 312–315 of
`collaboration.ts`): `myForkId = ''`, labels `Editing` / `Root` / `Review`,
empty review menu, only the `root` item in the suggestion menu, and the client
attached to the root room. -/
def initState (r : String) : CState :=
  { rootRoomId := r
    currentRoomId := r
    myForkId := ""
    editingLabel := "Editing"
    suggestionLabel := "Root"
    reviewItems := []
    forkCmds := []
    suggestionItems := ["root"]
    prompts := []
    promptLog := []
    forkPending := false
    forkCalls := 0
    connectCalls := []
    mergeCalls := [] }

/-- `provider.connectFork(t)`: records the call and mirrors the new room into
`currentRoomId`. -/
def connectFork (s : CState) (t : String) : CState :=
  { s with connectCalls := s.connectCalls ++ [t], currentRoomId := t }

/-- The `editing` command (lines 261–267): only resets the two menu titles. -/
def execEditing (s : CState) : CState :=
  { s with editingLabel := "Editing", suggestionLabel := "Root" }

/-- The `suggesting` command (lines 268–287): set the editing label, clear the
review menu; if `myForkId === ''` set it to `'pending'` and issue `fork()`,
otherwise relabel the suggestion menu with `myForkId` and reconnect to it. -/
def execSuggesting (s : CState) : CState :=
  let s1 := { s with editingLabel := "Suggesting", reviewItems := [] }
  if s1.myForkId = "" then
    { s1 with myForkId := "pending", forkPending := true, forkCalls := s1.forkCalls + 1 }
  else
    connectFork { s1 with suggestionLabel := s1.myForkId } s1.myForkId

/-- Resolution of the `fork()` promise (lines 276–280): store the new fork id,
connect to it and show it as the suggestion-menu title.  A promise settles at
most once and only after `fork()` was called, hence the `forkPending` guard. -/
def execForkResolved (s : CState) (id : String) : CState :=
  if s.forkPending then
    connectFork
      { s with myForkId := id, suggestionLabel := id, forkPending := false } id
  else s

/-- Rejection of the `fork()` promise: the source attaches no rejection
handler (`then` with a single argument, lines 276–280), so nothing is run; the
promise merely settles. -/
def execForkRejected (s : CState) : CState :=
  { s with forkPending := false }

/-- The `root` command (lines 289–298): clear the review menu, reset the two
titles and connect back to `rootRoomId`.  `myForkId` is not touched. -/
def execRoot (s : CState) : CState :=
  connectFork
    { s with reviewItems := [], suggestionLabel := "Root", editingLabel := "Editing" }
    s.rootRoomId

/-- `value.name.startsWith('fork_')` of line 321, expressed on the underlying
character list (the prefix is ASCII, so JS code-unit semantics and character
semantics agree). -/
def isForkKey (n : String) : Bool :=
  List.isPrefixOf "fork_".data n.data

/-- `value.name.slice('fork_'.length)` of line 322: drop the five prefix
characters. -/
def forkIdOf (n : String) : String :=
  String.mk (n.data.drop 5)

/-- Handling of one changed state-field name inside `_onStateChanged`
(lines 320–369): if the name starts with `fork_`, register the extracted id as
a suggestion command and menu item; if `myForkId` is neither `'pending'` nor
the extracted id, launch the "New suggestion" discovery dialog (recorded as a
pending prompt and logged). -/
def announceOne (s : CState) (n : String) : CState :=
  if isForkKey n then
    let newForkId := forkIdOf n
    let s1 := { s with forkCmds := s.forkCmds ++ [newForkId],
                       suggestionItems := s.suggestionItems ++ [newForkId] }
    if s1.myForkId ≠ "pending" ∧ s1.myForkId ≠ newForkId then
      { s1 with prompts := s1.prompts ++ [newForkId],
                promptLog := s1.promptLog ++ [newForkId] }
    else s1
  else s

/-- `_onStateChanged` (lines 317–373): iterate `announceOne` over the changed
field names of one notification, in delivery order. -/
def execStateChanged (s : CState) (names : List String) : CState :=
  names.foldl announceOne s

/-- Body of the per-fork suggestion-menu command registered for a discovered
id (lines 325–346): ownership comparison against the current `myForkId`
decides whether the review menu is cleared (own fork) or populated with
`merge` / `discard` (foreign fork); then relabel and connect to the fork. -/
def forkMenuBody (s : CState) (f : String) : CState :=
  let s1 :=
    if s.myForkId = f then
      { s with editingLabel := "Suggesting", reviewItems := [] }
    else
      { s with editingLabel := "Editing", reviewItems := ["merge", "discard"] }
  connectFork { s1 with suggestionLabel := f } f

/-- The user can invoke the per-fork command only once it is registered. -/
def execForkMenu (s : CState) (f : String) : CState :=
  if f ∈ s.forkCmds then forkMenuBody s f else s

/-- Answering the discovery dialog for `f` with "Open" (lines 358–368):
connect to the fork, relabel, and populate the review menu. -/
def execPromptOpen (s : CState) (f : String) : CState :=
  if f ∈ s.prompts then
    { connectFork { s with prompts := s.prompts.erase f } f with
        suggestionLabel := f, editingLabel := "Editing",
        reviewItems := ["merge", "discard"] }
  else s

/-- Answering the discovery dialog for `f` with "Discard": the dialog closes
and nothing else happens (lines 358–360). -/
def execPromptDiscard (s : CState) (f : String) : CState :=
  if f ∈ s.prompts then { s with prompts := s.prompts.erase f } else s

/-- The `merge` review command (lines 300–305): issue
`requestDocMerge(currentRoomId, rootRoomId)` and nothing else.  Available only
while the review menu holds the `merge` item. -/
def execMerge (s : CState) : CState :=
  if "merge" ∈ s.reviewItems then
    { s with mergeCalls := s.mergeCalls ++ [(s.currentRoomId, s.rootRoomId)] }
  else s

/-- The `discard` review command (lines 306–310): its body is empty. -/
def execDiscard (s : CState) : CState :=
  s

/-- One event step of the client. -/
def step (s : CState) : Event → CState
  | .editing => execEditing s
  | .suggesting => execSuggesting s
  | .root => execRoot s
  | .forkResolved id => execForkResolved s id
  | .forkRejected => execForkRejected s
  | .stateChanged names => execStateChanged s names
  | .forkMenu id => execForkMenu s id
  | .promptOpen id => execPromptOpen s id
  | .promptDiscard id => execPromptDiscard s id
  | .merge => execMerge s
  | .discard => execDiscard s

/-- Run a list of events from a state. -/
def run (s : CState) (tr : List Event) : CState :=
  tr.foldl step s

/-- Environment well-formedness of a single event: the provider assigns fork
ids that are opaque non-empty strings, never the literal placeholder
`'pending'` (spec §3: fork identifiers are globally unique opaque ids assigned
by the provider). -/
def Event.wfb : Event → Bool
  | .forkResolved id => id ≠ "" && id ≠ "pending"
  | _ => true

/-- All events of a trace are well-formed. -/
def TraceWF (tr : List Event) : Prop :=
  ∀ e ∈ tr, e.wfb = true

instance : DecidablePred TraceWF := fun tr =>
  inferInstanceAs (Decidable (∀ e ∈ tr, e.wfb = true))

example :
    (run (initState "root") [Event.suggesting, Event.forkResolved "f1"]).myForkId
      = "f1" := by decide

example :
    (run (initState "root") [Event.suggesting, Event.forkResolved "f1"]).connectCalls
      = ["f1"] := by decide

example :
    (run (initState "root")
      [Event.stateChanged ["fork_f1"]]).prompts = ["f1"] := by decide

/-! ### Helper lemmas -/

theorem run_nil (s : CState) : run s [] = s := rfl

theorem run_cons (s : CState) (e : Event) (tr : List Event) :
    run s (e :: tr) = run (step s e) tr := rfl

theorem run_append (s : CState) (tr₁ tr₂ : List Event) :
    run s (tr₁ ++ tr₂) = run (run s tr₁) tr₂ := by
  simp [run, List.foldl_append]

/-- `announceOne` only registers menu entries and prompts; every other field
is untouched. -/
theorem announceOne_frame (s : CState) (n : String) :
    (announceOne s n).myForkId = s.myForkId ∧
    (announceOne s n).forkCalls = s.forkCalls ∧
    (announceOne s n).forkPending = s.forkPending ∧
    (announceOne s n).connectCalls = s.connectCalls ∧
    (announceOne s n).currentRoomId = s.currentRoomId ∧
    (announceOne s n).reviewItems = s.reviewItems ∧
    (announceOne s n).mergeCalls = s.mergeCalls := by
  unfold announceOne
  split
  · simp only
    split
    · simp
    · simp
  · simp

/-- Lift of `announceOne_frame` to a whole change notification. -/
theorem execStateChanged_frame (names : List String) (s : CState) :
    (execStateChanged s names).myForkId = s.myForkId ∧
    (execStateChanged s names).forkCalls = s.forkCalls ∧
    (execStateChanged s names).forkPending = s.forkPending ∧
    (execStateChanged s names).connectCalls = s.connectCalls ∧
    (execStateChanged s names).currentRoomId = s.currentRoomId ∧
    (execStateChanged s names).reviewItems = s.reviewItems ∧
    (execStateChanged s names).mergeCalls = s.mergeCalls := by
  induction names generalizing s with
  | nil => exact ⟨rfl, rfl, rfl, rfl, rfl, rfl, rfl⟩
  | cons n ns ih =>
      obtain ⟨a₁, a₂, a₃, a₄, a₅, a₆, a₇⟩ := announceOne_frame s n
      obtain ⟨b₁, b₂, b₃, b₄, b₅, b₆, b₇⟩ := ih (announceOne s n)
      exact ⟨b₁.trans a₁, b₂.trans a₂, b₃.trans a₃, b₄.trans a₄,
        b₅.trans a₅, b₆.trans a₆, b₇.trans a₇⟩

/-- A prompt is only created for an id different from the current `myForkId`:
the number of logged prompts for the client's own fork id never grows. -/
theorem announceOne_promptLog_count (s : CState) (n f : String)
    (h : s.myForkId = f) :
    ((announceOne s n).promptLog).count f = s.promptLog.count f := by
  unfold announceOne
  split
  · simp only
    split
    · rename_i hg
      simp only [ne_eq] at hg
      have hne : f ≠ forkIdOf n := fun he => hg.2 (h.trans he)
      simp [List.count_append, List.count_eq_zero, hne]
    · simp
  · simp

/-- Bundle of the two fork-request invariants: at most one `fork()` call is
ever issued, a call has been issued exactly when `myForkId` left `''`, and an
outstanding promise implies the one call was made. -/
def InvFork (s : CState) : Prop :=
  s.forkCalls ≤ 1 ∧ (s.forkCalls = 0 ↔ s.myForkId = "") ∧
    (s.forkPending = true → s.forkCalls = 1)

/-- An outstanding `fork()` promise implies `myForkId` is the `'pending'`
placeholder. -/
def InvPend (s : CState) : Prop :=
  s.forkPending = true → s.myForkId = "pending"

theorem invFork_step (s : CState) (e : Event) (hwf : e.wfb = true)
    (h : InvFork s) : InvFork (step s e) := by
  obtain ⟨h1, h2, h3⟩ := h
  unfold InvFork
  cases e with
  | editing => exact ⟨h1, h2, h3⟩
  | suggesting =>
      simp only [step]
      unfold execSuggesting
      simp only
      split
      · rename_i h0
        have hc : s.forkCalls = 0 := h2.mpr h0
        simp +decide [hc]
      · exact ⟨h1, h2, h3⟩
  | root => exact ⟨h1, h2, h3⟩
  | forkResolved id =>
      simp only [step]
      unfold execForkResolved
      split
      · rename_i hp
        have hc : s.forkCalls = 1 := h3 hp
        have hid : ¬id = "" := by
          simp [Event.wfb] at hwf
          exact hwf.1
        simp [connectFork, hc, hid]
      · exact ⟨h1, h2, h3⟩
  | forkRejected =>
      exact ⟨h1, h2, fun hh => by simp [step, execForkRejected] at hh⟩
  | stateChanged names =>
      obtain ⟨a₁, a₂, a₃, _, _, _, _⟩ := execStateChanged_frame names s
      simp only [step]
      rw [a₁, a₂, a₃]
      exact ⟨h1, h2, h3⟩
  | forkMenu id =>
      simp only [step]
      unfold execForkMenu forkMenuBody
      split
      · simp only
        split
        · exact ⟨h1, h2, h3⟩
        · exact ⟨h1, h2, h3⟩
      · exact ⟨h1, h2, h3⟩
  | promptOpen id =>
      simp only [step]
      unfold execPromptOpen
      split
      · exact ⟨h1, h2, h3⟩
      · exact ⟨h1, h2, h3⟩
  | promptDiscard id =>
      simp only [step]
      unfold execPromptDiscard
      split
      · exact ⟨h1, h2, h3⟩
      · exact ⟨h1, h2, h3⟩
  | merge =>
      simp only [step]
      unfold execMerge
      split
      · exact ⟨h1, h2, h3⟩
      · exact ⟨h1, h2, h3⟩
  | discard => exact ⟨h1, h2, h3⟩

theorem invFork_run (s : CState) (tr : List Event) (hwf : TraceWF tr)
    (h : InvFork s) : InvFork (run s tr) := by
  induction tr generalizing s with
  | nil => exact h
  | cons e es ih =>
      rw [run_cons]
      exact ih (step s e) (fun x hx => hwf x (List.mem_cons_of_mem _ hx))
        (invFork_step s e (hwf e (List.mem_cons_self _ _)) h)

theorem invFork_init (r : String) : InvFork (initState r) :=
  ⟨Nat.zero_le 1, by simp [initState], fun hh => nomatch hh⟩

theorem invPend_step (s : CState) (e : Event) (h : InvPend s) :
    InvPend (step s e) := by
  unfold InvPend
  cases e with
  | editing => exact h
  | suggesting =>
      simp only [step]
      unfold execSuggesting
      simp only
      split
      · exact fun _ => rfl
      · exact h
  | root => exact h
  | forkResolved id =>
      simp only [step]
      unfold execForkResolved
      split
      · exact fun hh => nomatch hh
      · exact h
  | forkRejected => exact fun hh => nomatch hh
  | stateChanged names =>
      obtain ⟨a₁, _, a₃, _, _, _, _⟩ := execStateChanged_frame names s
      simp only [step]
      rw [a₁, a₃]
      exact h
  | forkMenu id =>
      simp only [step]
      unfold execForkMenu forkMenuBody
      split
      · simp only
        split
        · exact h
        · exact h
      · exact h
  | promptOpen id =>
      simp only [step]
      unfold execPromptOpen
      split
      · exact h
      · exact h
  | promptDiscard id =>
      simp only [step]
      unfold execPromptDiscard
      split
      · exact h
      · exact h
  | merge =>
      simp only [step]
      unfold execMerge
      split
      · exact h
      · exact h
  | discard => exact h

theorem invPend_run (s : CState) (tr : List Event) (h : InvPend s) :
    InvPend (run s tr) := by
  induction tr generalizing s with
  | nil => exact h
  | cons e es ih =>
      rw [run_cons]
      exact ih (step s e) (invPend_step s e h)

theorem invPend_init (r : String) : InvPend (initState r) :=
  fun hh => nomatch hh

/-- Once non-empty, `myForkId` never becomes empty again (no reset path exists
in the source), provided the environment resolves `fork()` with genuine ids. -/
theorem myForkId_ne_empty_step (s : CState) (e : Event) (hwf : e.wfb = true)
    (h : ¬s.myForkId = "") : ¬(step s e).myForkId = "" := by
  cases e with
  | editing => exact h
  | suggesting =>
      simp only [step]
      unfold execSuggesting
      simp only
      split
      · rename_i h0
        exact absurd h0 h
      · exact h
  | root => exact h
  | forkResolved id =>
      simp only [step]
      unfold execForkResolved
      split
      · have hid : ¬id = "" := by
          simp [Event.wfb] at hwf
          exact hwf.1
        exact hid
      · exact h
  | forkRejected => exact h
  | stateChanged names =>
      obtain ⟨a₁, _, _, _, _, _, _⟩ := execStateChanged_frame names s
      simp only [step]
      rw [a₁]
      exact h
  | forkMenu id =>
      simp only [step]
      unfold execForkMenu forkMenuBody
      split
      · simp only
        split
        · exact h
        · exact h
      · exact h
  | promptOpen id =>
      simp only [step]
      unfold execPromptOpen
      split
      · exact h
      · exact h
  | promptDiscard id =>
      simp only [step]
      unfold execPromptDiscard
      split
      · exact h
      · exact h
  | merge =>
      simp only [step]
      unfold execMerge
      split
      · exact h
      · exact h
  | discard => exact h

/-- Lift of `announceOne_promptLog_count` to a whole change notification. -/
theorem execStateChanged_promptLog_count (names : List String) (s : CState)
    (f : String) (h : s.myForkId = f) :
    ((execStateChanged s names).promptLog).count f = s.promptLog.count f := by
  induction names generalizing s with
  | nil => rfl
  | cons n ns ih =>
      have h' : (announceOne s n).myForkId = f := (announceOne_frame s n).1.trans h
      exact (ih (announceOne s n) h').trans (announceOne_promptLog_count s n f h)

/-- Once `myForkId` holds a real fork id `f` (neither empty nor `'pending'`)
and no fork promise is outstanding, one event step keeps both facts and never
logs a discovery prompt for `f`. -/
theorem own_step (f : String) (hf1 : f ≠ "")
    (s : CState) (e : Event) (h1 : s.myForkId = f) (h2 : s.forkPending = false) :
    (step s e).myForkId = f ∧ (step s e).forkPending = false ∧
      ((step s e).promptLog).count f = s.promptLog.count f := by
  cases e with
  | editing => exact ⟨h1, h2, rfl⟩
  | suggesting =>
      simp only [step]
      unfold execSuggesting
      simp only
      split
      · rename_i h0
        exact absurd (h1.symm.trans h0) hf1
      · exact ⟨h1, h2, rfl⟩
  | root => exact ⟨h1, h2, rfl⟩
  | forkResolved id =>
      simp only [step]
      unfold execForkResolved
      split
      · rename_i hp
        rw [h2] at hp
        exact absurd hp (by simp)
      · exact ⟨h1, h2, rfl⟩
  | forkRejected => exact ⟨h1, rfl, rfl⟩
  | stateChanged names =>
      obtain ⟨a₁, _, a₃, _, _, _, _⟩ := execStateChanged_frame names s
      exact ⟨a₁.trans h1, a₃.trans h2, execStateChanged_promptLog_count names s f h1⟩
  | forkMenu id =>
      simp only [step]
      unfold execForkMenu forkMenuBody
      split
      · simp only
        split
        · exact ⟨h1, h2, rfl⟩
        · exact ⟨h1, h2, rfl⟩
      · exact ⟨h1, h2, rfl⟩
  | promptOpen id =>
      simp only [step]
      unfold execPromptOpen
      split
      · exact ⟨h1, h2, rfl⟩
      · exact ⟨h1, h2, rfl⟩
  | promptDiscard id =>
      simp only [step]
      unfold execPromptDiscard
      split
      · exact ⟨h1, h2, rfl⟩
      · exact ⟨h1, h2, rfl⟩
  | merge =>
      simp only [step]
      unfold execMerge
      split
      · exact ⟨h1, h2, rfl⟩
      · exact ⟨h1, h2, rfl⟩
  | discard => exact ⟨h1, h2, rfl⟩

/-- Trace-level version of `own_step`. -/
theorem own_run (f : String) (hf1 : f ≠ "")
    (s : CState) (tr : List Event) (h1 : s.myForkId = f)
    (h2 : s.forkPending = false) :
    (run s tr).myForkId = f ∧ (run s tr).forkPending = false ∧
      ((run s tr).promptLog).count f = s.promptLog.count f := by
  induction tr generalizing s with
  | nil => exact ⟨h1, h2, rfl⟩
  | cons e es ih =>
      obtain ⟨b1, b2, b3⟩ := own_step f hf1 s e h1 h2
      obtain ⟨c1, c2, c3⟩ := ih (step s e) b1 b2
      exact ⟨c1, c2, c3.trans b3⟩

/-! ### Claims -/

/-- C1: for every sequence of "Suggesting" selections by one client (with or
without intervening "Root" selections — the code is even stronger than the
claim), at most one `fork()` call is issued; the first selection with
`myForkId = ''` sets `myForkId` to `'pending'` and issues `fork()`; on
resolution `myForkId` becomes the returned id, `connectFork` is called with it
and it becomes the suggestion-menu title; every later "Suggesting" selection
reconnects to the stored id without a new `fork()` call. -/
theorem c1_single_fork (r : String) (tr : List Event) (s : CState) (id : String) :
    (TraceWF tr → (run (initState r) tr).forkCalls ≤ 1)
    ∧ (s.myForkId = "" →
        (execSuggesting s).myForkId = "pending"
        ∧ (execSuggesting s).forkCalls = s.forkCalls + 1
        ∧ (execSuggesting s).forkPending = true
        ∧ (execSuggesting s).connectCalls = s.connectCalls)
    ∧ (s.forkPending = true →
        (execForkResolved s id).myForkId = id
        ∧ (execForkResolved s id).connectCalls = s.connectCalls ++ [id]
        ∧ (execForkResolved s id).suggestionLabel = id)
    ∧ (¬s.myForkId = "" →
        (execSuggesting s).forkCalls = s.forkCalls
        ∧ (execSuggesting s).connectCalls = s.connectCalls ++ [s.myForkId]
        ∧ (execSuggesting s).suggestionLabel = s.myForkId) := by
  refine ⟨fun hwf => (invFork_run _ tr hwf (invFork_init r)).1, ?_, ?_, ?_⟩
  · intro h0
    unfold execSuggesting
    simp only
    split
    · exact ⟨rfl, rfl, rfl, rfl⟩
    · rename_i hne
      exact absurd h0 hne
  · intro hp
    unfold execForkResolved
    split
    · exact ⟨rfl, rfl, rfl⟩
    · rename_i hnp
      exact absurd hp hnp
  · intro hne
    unfold execSuggesting
    simp only
    split
    · rename_i h0
      exact absurd h0 hne
    · exact ⟨rfl, rfl, rfl⟩

/-- C1 witness: the four parts of `c1_single_fork` evaluated on a concrete
session in which the client selects "Suggesting" twice around the resolution
of its single `fork()` call. -/
theorem c1_single_fork_witness :
    (run (initState "root")
        [Event.suggesting, Event.forkResolved "f1", Event.suggesting]).forkCalls ≤ 1
    ∧ ((execSuggesting (initState "root")).myForkId = "pending"
        ∧ (execSuggesting (initState "root")).forkCalls = (initState "root").forkCalls + 1
        ∧ (execSuggesting (initState "root")).forkPending = true
        ∧ (execSuggesting (initState "root")).connectCalls = (initState "root").connectCalls)
    ∧ ((execForkResolved (run (initState "root") [Event.suggesting]) "f1").myForkId = "f1"
        ∧ (execForkResolved (run (initState "root") [Event.suggesting]) "f1").connectCalls
            = (run (initState "root") [Event.suggesting]).connectCalls ++ ["f1"]
        ∧ (execForkResolved (run (initState "root") [Event.suggesting]) "f1").suggestionLabel = "f1")
    ∧ ((execSuggesting (run (initState "root") [Event.suggesting, Event.forkResolved "f1"])).forkCalls
          = (run (initState "root") [Event.suggesting, Event.forkResolved "f1"]).forkCalls
        ∧ (execSuggesting (run (initState "root") [Event.suggesting, Event.forkResolved "f1"])).connectCalls
            = (run (initState "root") [Event.suggesting, Event.forkResolved "f1"]).connectCalls
              ++ [(run (initState "root") [Event.suggesting, Event.forkResolved "f1"]).myForkId]
        ∧ (execSuggesting (run (initState "root") [Event.suggesting, Event.forkResolved "f1"])).suggestionLabel
            = (run (initState "root") [Event.suggesting, Event.forkResolved "f1"]).myForkId) :=
  ⟨(c1_single_fork "root" [Event.suggesting, Event.forkResolved "f1", Event.suggesting]
      (initState "root") "f1").1 (by decide),
   (c1_single_fork "root" [] (initState "root") "f1").2.1 (by decide),
   (c1_single_fork "root" [] (run (initState "root") [Event.suggesting]) "f1").2.2.1 (by decide),
   (c1_single_fork "root" [] (run (initState "root") [Event.suggesting, Event.forkResolved "f1"])
      "f1").2.2.2 (by decide)⟩

/-- C2 counterexample: review actions offered for the client's own fork in a
reachable state.  While the client's `fork()` is pending it opens a foreign
fork `f` from the suggestion menu (populating Merge/Discard); when its own
fork then resolves as `g`, the client is connected to `g = myForkId` with the
review actions still populated, and clicking Merge issues
`requestDocMerge("g", rootRoomId)` for its own fork. -/
theorem c2_counterexample :
    ((run (initState "root")
        [Event.suggesting, Event.stateChanged ["fork_f"], Event.forkMenu "f",
         Event.forkResolved "g"]).reviewItems = ["merge", "discard"]
      ∧ (run (initState "root")
          [Event.suggesting, Event.stateChanged ["fork_f"], Event.forkMenu "f",
           Event.forkResolved "g"]).myForkId = "g"
      ∧ (run (initState "root")
          [Event.suggesting, Event.stateChanged ["fork_f"], Event.forkMenu "f",
           Event.forkResolved "g"]).currentRoomId = "g"
      ∧ (run (initState "root")
          [Event.suggesting, Event.stateChanged ["fork_f"], Event.forkMenu "f",
           Event.forkResolved "g"]).suggestionLabel = "g")
    ∧ (run (initState "root")
        [Event.suggesting, Event.stateChanged ["fork_f"], Event.forkMenu "f",
         Event.forkResolved "g", Event.merge]).mergeCalls = [("g", "root")] := by
  decide

/-- C2 (amended): the ownership comparison is checked at the moment the review
actions are populated, not as a state invariant.  Executing the per-fork menu
command for `f` populates Merge/Discard exactly when `myForkId ≠ f` at click
time and clears the review menu when the author re-selects their own fork;
the discovery prompt for an announced id is only created when `myForkId` is
neither `'pending'` nor that id.  (The invariant claimed over all reachable
states fails: fork resolution does not clear the review menu — see
`c2_counterexample`.) -/
theorem c2_review_guard (s : CState) (f n : String) (h : f ∈ s.forkCmds) :
    ((execForkMenu s f).reviewItems = if s.myForkId = f then [] else ["merge", "discard"])
    ∧ (execForkMenu s f).suggestionLabel = f
    ∧ (execForkMenu s f).connectCalls = s.connectCalls ++ [f]
    ∧ ((announceOne s n).prompts ≠ s.prompts →
        s.myForkId ≠ "pending" ∧ s.myForkId ≠ forkIdOf n) := by
  refine ⟨?_, ?_, ?_, ?_⟩
  · by_cases hmf : s.myForkId = f <;>
      simp [execForkMenu, forkMenuBody, connectFork, h, hmf]
  · by_cases hmf : s.myForkId = f <;>
      simp [execForkMenu, forkMenuBody, connectFork, h, hmf]
  · by_cases hmf : s.myForkId = f <;>
      simp [execForkMenu, forkMenuBody, connectFork, h, hmf]
  · intro hp
    unfold announceOne at hp
    by_cases hk : isForkKey n
    · rw [if_pos hk] at hp
      simp only at hp
      by_cases hg : s.myForkId ≠ "pending" ∧ s.myForkId ≠ forkIdOf n
      · exact hg
      · rw [if_neg hg] at hp
        exact absurd rfl hp
    · rw [if_neg hk] at hp
      exact absurd rfl hp

/-- C2 witness: `c2_review_guard` evaluated on a session where a foreign fork
`f1` is announced and then selected: the review menu is populated (since
`myForkId = '' ≠ 'f1'`), the suggestion label and connection point at `f1`,
and the single announcement prompted precisely because the guard held. -/
theorem c2_review_guard_witness :
    ((execForkMenu (run (initState "root") [Event.stateChanged ["fork_f1"]]) "f1").reviewItems
        = if (run (initState "root") [Event.stateChanged ["fork_f1"]]).myForkId = "f1"
          then [] else ["merge", "discard"])
    ∧ (execForkMenu (run (initState "root") [Event.stateChanged ["fork_f1"]]) "f1").suggestionLabel = "f1"
    ∧ (execForkMenu (run (initState "root") [Event.stateChanged ["fork_f1"]]) "f1").connectCalls
        = (run (initState "root") [Event.stateChanged ["fork_f1"]]).connectCalls ++ ["f1"]
    ∧ ((announceOne (run (initState "root") [Event.stateChanged ["fork_f1"]]) "fork_f2").prompts
          ≠ (run (initState "root") [Event.stateChanged ["fork_f1"]]).prompts →
        (run (initState "root") [Event.stateChanged ["fork_f1"]]).myForkId ≠ "pending"
        ∧ (run (initState "root") [Event.stateChanged ["fork_f1"]]).myForkId ≠ forkIdOf "fork_f2") :=
  c2_review_guard (run (initState "root") [Event.stateChanged ["fork_f1"]]) "f1" "fork_f2"
    (by decide)

/-- C3: ownership classification is stable.  Once `myForkId` holds a real fork
id `f` (non-empty, not the `'pending'` placeholder), it keeps that value for
the rest of the session and no later event — in particular no further
announcement of `fork_f` — ever creates a foreign-fork discovery prompt for
`f` (the log of created prompts gains no entry for `f`). -/
theorem c3_ownership_stability (r f : String) (tr₁ tr₂ : List Event)
    (hf1 : f ≠ "") (hf2 : f ≠ "pending")
    (h : (run (initState r) tr₁).myForkId = f) :
    (run (initState r) (tr₁ ++ tr₂)).myForkId = f
    ∧ ((run (initState r) (tr₁ ++ tr₂)).promptLog).count f
        = ((run (initState r) tr₁).promptLog).count f := by
  have hpend : (run (initState r) tr₁).forkPending = false := by
    rcases Bool.eq_false_or_eq_true ((run (initState r) tr₁).forkPending) with hb | hb
    · have hp := invPend_run (initState r) tr₁ (invPend_init r) hb
      exact absurd (h.symm.trans hp) hf2
    · exact hb
  rw [run_append]
  obtain ⟨a1, _, a3⟩ := own_run f hf1 (run (initState r) tr₁) tr₂ h hpend
  exact ⟨a1, a3⟩

/-- C3 witness: after the client's own fork resolves as `f1`, a later
announcement of `fork_f1` leaves `myForkId` at `f1` and creates no prompt. -/
theorem c3_ownership_stability_witness :
    (run (initState "root")
        ([Event.suggesting, Event.forkResolved "f1"] ++ [Event.stateChanged ["fork_f1"]])).myForkId = "f1"
    ∧ ((run (initState "root")
          ([Event.suggesting, Event.forkResolved "f1"] ++ [Event.stateChanged ["fork_f1"]])).promptLog).count "f1"
        = ((run (initState "root") [Event.suggesting, Event.forkResolved "f1"]).promptLog).count "f1" :=
  c3_ownership_stability "root" "f1" [Event.suggesting, Event.forkResolved "f1"]
    [Event.stateChanged ["fork_f1"]] (by decide) (by decide) (by decide)

/-- C4: what the code actually does when `fork()` rejects — `then` installs no
rejection handler (lines 276–280), so the state machine stays at
`myForkId = 'pending'` with the `Suggesting` label; a later "Suggesting"
selection issues no fresh `fork()` call (the call count stays 1) and instead
reconnects to the literal `'pending'`.  The specified rollback to `Editing` /
`myForkId = ''` does not happen. -/
theorem c4_no_rollback_on_rejection :
    (run (initState "root") [Event.suggesting, Event.forkRejected]).myForkId = "pending"
    ∧ (run (initState "root") [Event.suggesting, Event.forkRejected]).editingLabel = "Suggesting"
    ∧ (run (initState "root")
        [Event.suggesting, Event.forkRejected, Event.suggesting]).forkCalls = 1
    ∧ (run (initState "root")
        [Event.suggesting, Event.forkRejected, Event.suggesting]).connectCalls = ["pending"] := by
  decide

/-- C5 counterexample: selecting "Root" does not reset `myForkId`; after the
client's fork resolved as `f1`, returning to "Root" leaves `myForkId = 'f1'`
(no assignment to `myForkId` exists in the `root` command, lines 289–298). -/
theorem c5_counterexample :
    (run (initState "root")
        [Event.suggesting, Event.forkResolved "f1", Event.root]).myForkId = "f1" := by
  decide

/-- C5 (amended): selecting "Root" connects to `rootRoomId`, restores the
`Editing` / `Root` titles and clears the review context, but leaves
`myForkId` unchanged; indeed no event ever resets a non-empty `myForkId` back
to `''` (there is no reset path at all in this design). -/
theorem c5_root_command (s : CState) (e : Event) :
    ((execRoot s).connectCalls = s.connectCalls ++ [s.rootRoomId]
      ∧ (execRoot s).currentRoomId = s.rootRoomId
      ∧ (execRoot s).editingLabel = "Editing"
      ∧ (execRoot s).suggestionLabel = "Root"
      ∧ (execRoot s).reviewItems = []
      ∧ (execRoot s).myForkId = s.myForkId)
    ∧ (e.wfb = true → ¬s.myForkId = "" → ¬(step s e).myForkId = "") :=
  ⟨⟨rfl, rfl, rfl, rfl, rfl, rfl⟩, fun hwf h => myForkId_ne_empty_step s e hwf h⟩

/-- C5 witness: `c5_root_command` evaluated on the session of
`c5_counterexample` with the `root` event itself as the next step. -/
theorem c5_root_command_witness :
    ((execRoot (run (initState "root") [Event.suggesting, Event.forkResolved "f1"])).connectCalls
        = (run (initState "root") [Event.suggesting, Event.forkResolved "f1"]).connectCalls
          ++ [(run (initState "root") [Event.suggesting, Event.forkResolved "f1"]).rootRoomId]
      ∧ (execRoot (run (initState "root") [Event.suggesting, Event.forkResolved "f1"])).currentRoomId
          = (run (initState "root") [Event.suggesting, Event.forkResolved "f1"]).rootRoomId
      ∧ (execRoot (run (initState "root") [Event.suggesting, Event.forkResolved "f1"])).editingLabel = "Editing"
      ∧ (execRoot (run (initState "root") [Event.suggesting, Event.forkResolved "f1"])).suggestionLabel = "Root"
      ∧ (execRoot (run (initState "root") [Event.suggesting, Event.forkResolved "f1"])).reviewItems = []
      ∧ (execRoot (run (initState "root") [Event.suggesting, Event.forkResolved "f1"])).myForkId
          = (run (initState "root") [Event.suggesting, Event.forkResolved "f1"]).myForkId)
    ∧ ¬(step (run (initState "root") [Event.suggesting, Event.forkResolved "f1"]) Event.root).myForkId = "" :=
  ⟨(c5_root_command (run (initState "root") [Event.suggesting, Event.forkResolved "f1"]) Event.root).1,
   (c5_root_command (run (initState "root") [Event.suggesting, Event.forkResolved "f1"]) Event.root).2
     (by decide) (by decide)⟩

/-- C7 counterexample: a malformed announcement key is not ignored.  With
`myForkId = 'f1'`, the key `fork_` (empty extracted id) registers the empty id
in the suggestion menu and launches the discovery prompt for it, and the key
`fork_root` (id equal to `rootRoomId`) is likewise registered and prompted. -/
theorem c7_counterexample :
    (run (initState "root") [Event.suggesting, Event.forkResolved "f1",
        Event.stateChanged ["fork_"]]).forkCmds = [""]
    ∧ (run (initState "root") [Event.suggesting, Event.forkResolved "f1",
        Event.stateChanged ["fork_"]]).prompts = [""]
    ∧ (run (initState "root") [Event.suggesting, Event.forkResolved "f1",
        Event.stateChanged ["fork_root"]]).forkCmds = ["root"]
    ∧ (run (initState "root") [Event.suggesting, Event.forkResolved "f1",
        Event.stateChanged ["fork_root"]]).prompts = ["root"] := by
  decide

/-- C7 (amended): the announcement handler performs no malformation check.  A
key whose extracted id is empty, or equal to `rootRoomId`, is processed like
any other id: it is registered as a suggestion-menu entry, and the discovery
prompt fires whenever `myForkId` is neither `'pending'` nor the extracted id
itself. -/
theorem c7_no_malformed_filter (s : CState) :
    ((announceOne s "fork_").forkCmds = s.forkCmds ++ [""]
      ∧ (s.myForkId ≠ "pending" → s.myForkId ≠ "" →
          (announceOne s "fork_").prompts = s.prompts ++ [""]))
    ∧ (s.rootRoomId = "root" →
        (announceOne s "fork_root").forkCmds = s.forkCmds ++ [s.rootRoomId]
        ∧ (s.myForkId ≠ "pending" → s.myForkId ≠ "root" →
            (announceOne s "fork_root").prompts = s.prompts ++ [s.rootRoomId])) := by
  have hk1 : isForkKey "fork_" = true := by decide
  have hk2 : isForkKey "fork_root" = true := by decide
  have hi1 : forkIdOf "fork_" = "" := by decide
  have hi2 : forkIdOf "fork_root" = "root" := by decide
  refine ⟨⟨?_, ?_⟩, ?_⟩
  · simp only [announceOne, hk1, if_true, hi1]
    split <;> rfl
  · intro h1 h2
    simp only [announceOne, hk1, if_true, hi1]
    rw [if_pos ⟨h1, h2⟩]
  · intro hr
    rw [hr]
    refine ⟨?_, ?_⟩
    · simp only [announceOne, hk2, if_true, hi2]
      split <;> rfl
    · intro h1 h2
      simp only [announceOne, hk2, if_true, hi2]
      rw [if_pos ⟨h1, h2⟩]

/-- C7 witness: `c7_no_malformed_filter` evaluated on the session of
`c7_counterexample`, whose `myForkId = 'f1'` satisfies every guard. -/
theorem c7_no_malformed_filter_witness :
    ((announceOne (run (initState "root") [Event.suggesting, Event.forkResolved "f1"]) "fork_").forkCmds
        = (run (initState "root") [Event.suggesting, Event.forkResolved "f1"]).forkCmds ++ [""]
      ∧ (announceOne (run (initState "root") [Event.suggesting, Event.forkResolved "f1"]) "fork_").prompts
          = (run (initState "root") [Event.suggesting, Event.forkResolved "f1"]).prompts ++ [""])
    ∧ ((announceOne (run (initState "root") [Event.suggesting, Event.forkResolved "f1"]) "fork_root").forkCmds
        = (run (initState "root") [Event.suggesting, Event.forkResolved "f1"]).forkCmds
          ++ [(run (initState "root") [Event.suggesting, Event.forkResolved "f1"]).rootRoomId]
      ∧ (announceOne (run (initState "root") [Event.suggesting, Event.forkResolved "f1"]) "fork_root").prompts
          = (run (initState "root") [Event.suggesting, Event.forkResolved "f1"]).prompts
            ++ [(run (initState "root") [Event.suggesting, Event.forkResolved "f1"]).rootRoomId]) :=
  ⟨⟨(c7_no_malformed_filter (run (initState "root") [Event.suggesting, Event.forkResolved "f1"])).1.1,
    (c7_no_malformed_filter (run (initState "root") [Event.suggesting, Event.forkResolved "f1"])).1.2
      (by decide) (by decide)⟩,
   ⟨((c7_no_malformed_filter (run (initState "root") [Event.suggesting, Event.forkResolved "f1"])).2
      (by decide)).1,
    ((c7_no_malformed_filter (run (initState "root") [Event.suggesting, Event.forkResolved "f1"])).2
      (by decide)).2 (by decide) (by decide)⟩⟩

/-- C8: selecting "Merge" while the review menu is populated issues exactly
one `requestDocMerge` call with arguments exactly
`(currentRoomId, rootRoomId)` of the shared model, and changes nothing else:
the resulting state is the old state with only that one call appended. -/
theorem c8_merge_request (s : CState) (h : "merge" ∈ s.reviewItems) :
    execMerge s = { s with mergeCalls := s.mergeCalls ++ [(s.currentRoomId, s.rootRoomId)] } := by
  unfold execMerge
  rw [if_pos h]

/-- C8 witness: `c8_merge_request` on a session reviewing the foreign fork
`f1` opened from the discovery prompt; the one recorded call is
`("f1", "root")`. -/
theorem c8_merge_request_witness :
    execMerge (run (initState "root") [Event.stateChanged ["fork_f1"], Event.promptOpen "f1"])
      = { run (initState "root") [Event.stateChanged ["fork_f1"], Event.promptOpen "f1"] with
          mergeCalls :=
            (run (initState "root") [Event.stateChanged ["fork_f1"], Event.promptOpen "f1"]).mergeCalls
            ++ [((run (initState "root") [Event.stateChanged ["fork_f1"], Event.promptOpen "f1"]).currentRoomId,
                 (run (initState "root") [Event.stateChanged ["fork_f1"], Event.promptOpen "f1"]).rootRoomId)] }
    ∧ (execMerge (run (initState "root")
        [Event.stateChanged ["fork_f1"], Event.promptOpen "f1"])).mergeCalls = [("f1", "root")] :=
  ⟨c8_merge_request (run (initState "root") [Event.stateChanged ["fork_f1"], Event.promptOpen "f1"])
    (by decide), by decide⟩

/-- C9: selecting "Suggesting" while `myForkId = 'pending'` issues no second
`fork()` call, but reconnects via `connectFork` with the literal placeholder
string `'pending'` and makes `'pending'` the suggestion-menu label. -/
theorem c9_pending_reconnect (s : CState) (h : s.myForkId = "pending") :
    (execSuggesting s).forkCalls = s.forkCalls
    ∧ (execSuggesting s).forkPending = s.forkPending
    ∧ (execSuggesting s).connectCalls = s.connectCalls ++ ["pending"]
    ∧ (execSuggesting s).suggestionLabel = "pending" := by
  unfold execSuggesting
  simp only
  split
  · rename_i h0
    exact absurd (h.symm.trans h0) (by decide)
  · simp [connectFork, h]

/-- C9 witness: `c9_pending_reconnect` right after the first "Suggesting"
selection, while the `fork()` promise is still outstanding. -/
theorem c9_pending_reconnect_witness :
    (execSuggesting (run (initState "root") [Event.suggesting])).forkCalls
        = (run (initState "root") [Event.suggesting]).forkCalls
    ∧ (execSuggesting (run (initState "root") [Event.suggesting])).forkPending
        = (run (initState "root") [Event.suggesting]).forkPending
    ∧ (execSuggesting (run (initState "root") [Event.suggesting])).connectCalls
        = (run (initState "root") [Event.suggesting]).connectCalls ++ ["pending"]
    ∧ (execSuggesting (run (initState "root") [Event.suggesting])).suggestionLabel = "pending" :=
  c9_pending_reconnect (run (initState "root") [Event.suggesting]) (by decide)

/-- C10: the "Editing" menu command only rewrites the two menu titles — it
performs no `connectFork` call and leaves `myForkId`, the review menu, the
connection target and the call records unchanged; returning to the root room
happens only through the "Root" command, which does append a `connectFork`
call to `rootRoomId`. -/
theorem c10_editing_frame (s : CState) :
    (execEditing s).editingLabel = "Editing"
    ∧ (execEditing s).suggestionLabel = "Root"
    ∧ (execEditing s).connectCalls = s.connectCalls
    ∧ (execEditing s).currentRoomId = s.currentRoomId
    ∧ (execEditing s).myForkId = s.myForkId
    ∧ (execEditing s).reviewItems = s.reviewItems
    ∧ (execEditing s).forkCalls = s.forkCalls
    ∧ (execEditing s).mergeCalls = s.mergeCalls
    ∧ (execRoot s).connectCalls = s.connectCalls ++ [s.rootRoomId] :=
  ⟨rfl, rfl, rfl, rfl, rfl, rfl, rfl, rfl, rfl⟩
